import Mathlib

/-!
Shallow embedding of the dcc094 commit-classification scripts
(`src/new-script.py` and `src/teste.py`) together with proofs about the
spec's claims.

Conventions of the embedding:
* Python strings become `String`; nullable values become `Option`.
* Python's `re.search(pat, s, re.IGNORECASE)` for the specific patterns used
  by the scripts (`\bword\b`, `\bword(suf)?\b` and `\bword\(`) is implemented
  directly: both pattern and haystack are lower-cased and a word-boundary
  search is performed.
* Python sets of strings become duplicate-free `List String` values built by
  `setAdd`; dictionaries with integer counters become association lists.
* The terminating `while` loop of `find_test_files` is modelled with an
  explicit fuel parameter; every invariant proved below holds for all fuel
  values, and concrete evaluations use fuel visibly larger than the number of
  loop iterations.
-/

/-- Word characters in the sense of the regular-expression `\b` boundary
(ASCII letters, digits and underscore, which covers every string the
scripts' patterns are matched against). -/
def isWordChar (c : Char) : Bool := c.isAlphanum || c = '_'

/-- Lower-case a string character by character, modelling Python's
`str.lower()` on the ASCII inputs used by the scripts. -/
def lowerStr (s : String) : String := String.mk (s.toList.map Char.toLower)

/-- Strip `needle` from the front of `hay`; `some rest` on success. -/
def stripFront : List Char → List Char → Option (List Char)
  | [], hay => some hay
  | _ :: _, [] => none
  | n :: ns, h :: hs => if n = h then stripFront ns hs else none

/-- Is the position before the current haystack a `\b` boundary, given the
previous character (`none` at the start of the string)? -/
def leftOk : Option Char → Bool
  | none => true
  | some c => !isWordChar c

/-- Does `\bw\b` match at the head of `hay` (left boundary checked by the
caller)? The right boundary holds at end of string or before a non-word
character. -/
def hereWord (w : List Char) (hay : List Char) : Bool :=
  match stripFront w hay with
  | some [] => true
  | some (c :: _) => !isWordChar c
  | none => false

/-- Does `\bw\(` match at the head of `hay` (left boundary checked by the
caller)? The literal parenthesis must follow the word. -/
def hereCall (w : List Char) (hay : List Char) : Bool :=
  match stripFront w hay with
  | some ('(' :: _) => true
  | _ => false

/-- Search `\bw\b` anywhere in the haystack, tracking the previous character
for the left boundary. -/
def searchWordFrom (w : List Char) : Option Char → List Char → Bool
  | prev, [] => leftOk prev && hereWord w []
  | prev, c :: cs => (leftOk prev && hereWord w (c :: cs)) || searchWordFrom w (some c) cs

/-- Search `\bw\(` anywhere in the haystack. -/
def searchCallFrom (w : List Char) : Option Char → List Char → Bool
  | _, [] => false
  | prev, c :: cs => (leftOk prev && hereCall w (c :: cs)) || searchCallFrom w (some c) cs

/-- Case-insensitive `re.search` for a pattern of the shape `\bword\b`
(the word may contain spaces, as in `\btest cases\b`). -/
def reWordSearch (word hay : String) : Bool :=
  searchWordFrom (lowerStr word).toList none (lowerStr hay).toList

/-- Case-insensitive `re.search` for a pattern of the shape `\bword\(`. -/
def reCallSearch (word hay : String) : Bool :=
  searchCallFrom (lowerStr word).toList none (lowerStr hay).toList

/-- Does `needle` occur at the front of `hay`? -/
def beginsList : List Char → List Char → Bool
  | [], _ => true
  | _ :: _, [] => false
  | n :: ns, h :: hs => n = h && beginsList ns hs

/-- Does `needle` occur anywhere in `hay`? -/
def hasSubList (needle : List Char) : List Char → Bool
  | [] => needle.isEmpty
  | c :: cs => beginsList needle (c :: cs) || hasSubList needle cs

/-- Python's `needle in hay` on strings: plain substring containment. -/
def pyIn (needle hay : String) : Bool := hasSubList needle.toList hay.toList

/-- Python's `hay.endswith(suf)`. -/
def pyEndsWith (hay suf : String) : Bool :=
  beginsList suf.toList.reverse hay.toList.reverse

/-- Python's `x or "Unknown"` on a nullable author name: `None` and the empty
string are falsy. -/
def orUnknown : Option String → String
  | none => "Unknown"
  | some s => if s = "" then "Unknown" else s

/-- The regular expressions of `get_keywords` in `src/new-script.py`, each
expanded into its finite list of literal word alternatives (an optional
group `(s)?` yields two alternatives); all are matched with `\b` boundaries
on both sides. -/
def testKeywordAlts : List (List String) :=
  [ ["test", "tests"],
    ["teste"],
    ["test case", "test cases"],
    ["add test", "added test"],
    ["update test", "updated test"],
    ["remove test", "removed test"],
    ["fix"],
    ["assert"],
    ["integration"] ]

/-- Does the commit message match some `get_keywords` pattern, in the sense
of `re.search(pattern, message, re.IGNORECASE)`? This is the message-keyword
test the spec's test-relation clause describes; in `src/new-script.py` the
function `get_keywords` is defined but `check_commit` never calls it. -/
def message_matches_test_keyword (msg : String) : Bool :=
  testKeywordAlts.any (fun alts => alts.any (fun w => reWordSearch w msg))

/-- A Python runtime value as far as `contains_test_code`'s `isinstance`
guard is concerned: a string, or one of the non-string shapes. -/
inductive PyVal where
  | pyNone
  | pyStr (s : String)
  | pyInt (n : Int)
  | pyBool (b : Bool)
deriving DecidableEq

/-- The string core of `contains_test_code` in `src/new-script.py`: the
patterns `\bassert\b`, `\bexpect\b`, `\bit\(`, `\bdescribe\(`, `\btest\(`,
`\bmock\(`, `\bspy\(`, searched case-insensitively. -/
def contains_test_code_str (patch : String) : Bool :=
  reWordSearch "assert" patch || reWordSearch "expect" patch ||
  reCallSearch "it" patch || reCallSearch "describe" patch ||
  reCallSearch "test" patch || reCallSearch "mock" patch ||
  reCallSearch "spy" patch

/-- `contains_test_code` from `src/new-script.py`: returns `False` for any
non-string input (the `isinstance(patch, str)` guard), otherwise searches
the test-code patterns. -/
def contains_test_code : PyVal → Bool
  | .pyStr s => contains_test_code_str s
  | _ => false

/-- A changed file of a fetched commit (`commit.files` element): filename,
status, change count, and the optional patch text. -/
structure FileChange where
  filename : String
  status : String
  changes : Nat
  patch : Option String
deriving DecidableEq

/-- A fetched commit as consumed by the classification part of
`check_commit`: sha, message and changed files. -/
structure CommitData where
  sha : String
  message : String
  files : List FileChange
deriving DecidableEq

/-- Python's `file.patch or ""`: a missing patch is replaced by the empty
string before any pattern matching. -/
def effPatch : Option String → String
  | none => ""
  | some s => s

/-- An entry of the `result` list built by `check_commit` for a matching
file. -/
structure MatchedFile where
  filename : String
  status : String
  changes : Nat
  patch : String
deriving DecidableEq

/-- The dictionary returned by `check_commit` on a successful fetch. -/
structure ClassificationResult where
  commit_sha : String
  message : String
  files : List MatchedFile
  related_to_tests : Bool
  objective : String
deriving DecidableEq

/-- `determine_commit_objective` from `src/new-script.py`: first-match-wins
over the lower-cased message, then a test-extension check on the changed
files' names. -/
def determine_commit_objective (commit_message : String) (changed_files : List FileChange) : String :=
  if pyIn "add test" (lowerStr commit_message) then "Adding new test cases"
  else if pyIn "update test" (lowerStr commit_message) then "Updating existing test cases"
  else if pyIn "remove test" (lowerStr commit_message) then "Removing test cases"
  else if changed_files.any (fun file =>
      ([".test.js", ".spec.js", ".test.py", ".spec.py", ".feature"] : List String).any
        (fun ext => pyEndsWith (lowerStr file.filename) ext)) then
    "Changes in test files"
  else "No specific test objective identified"

/-- The file-matching predicate of `check_commit`'s per-file loop:
`file.filename in test_files_set or contains_test_code(patch)` with
`patch = file.patch or ""`. -/
def fileMatchesTest (test_files_set : List String) (file : FileChange) : Bool :=
  test_files_set.contains file.filename ||
    contains_test_code (.pyStr (effPatch file.patch))

/-- The dictionary `check_commit` appends to `result` for a matching file:
filename, status, change count, and the patch with `None` replaced by `""`. -/
def matchedOf (file : FileChange) : MatchedFile :=
  { filename := file.filename, status := file.status,
    changes := file.changes, patch := effPatch file.patch }

/-- The classification part of `check_commit` from `src/new-script.py`
(everything after the fetch succeeded): collect the matching files, and
return the test-related dictionary when the list is non-empty, the
not-related dictionary otherwise. -/
def check_commit_classify (commit : CommitData) (test_files_set : List String) :
    ClassificationResult :=
  let result := (commit.files.filter (fileMatchesTest test_files_set)).map matchedOf
  if result.isEmpty then
    { commit_sha := commit.sha, message := commit.message, files := [],
      related_to_tests := false, objective := "No test files involved" }
  else
    { commit_sha := commit.sha, message := commit.message, files := result,
      related_to_tests := true,
      objective := determine_commit_objective commit.message commit.files }

/-- The outcome of one `repo.get_commit` attempt inside `check_commit`:
success, a `RateLimitExceededException`, or any other exception. -/
inductive FetchOutcome where
  | success (c : CommitData)
  | rateLimited
  | otherError
deriving DecidableEq

/-- The observable trace of `check_commit`'s retry loop: how many fetch
attempts were made, the sleeps performed (in seconds, in order), and the
fetched commit (`none` models `return None`). -/
structure FetchTrace where
  attempts : Nat
  sleeps : List Nat
  result : Option CommitData
deriving DecidableEq

/-- `retries = 3` in `check_commit` (`src/new-script.py`). -/
def retries : Nat := 3

/-- One unrolling of `for attempt in range(retries)` in `check_commit`:
`remaining` is the number of loop iterations left, `made` the attempts
already made, `sleeps` the sleeps performed so far. Success breaks out of
the loop; a rate-limit exception sleeps 60 seconds and retries; any other
exception returns `None` at once; exhausting the range falls through to the
`for`-`else` clause, which returns `None`. -/
def fetchAttempts (fetch : Nat → FetchOutcome) : Nat → Nat → List Nat → FetchTrace
  | 0, made, sleeps => { attempts := made, sleeps := sleeps, result := none }
  | remaining + 1, made, sleeps =>
    match fetch made with
    | .success c => { attempts := made + 1, sleeps := sleeps, result := some c }
    | .rateLimited => fetchAttempts fetch remaining (made + 1) (sleeps ++ [60])
    | .otherError => { attempts := made + 1, sleeps := sleeps, result := none }

/-- The retry loop of `check_commit`, given the outcome of each attempt. -/
def check_commit_fetch (fetch : Nat → FetchOutcome) : FetchTrace :=
  fetchAttempts fetch retries 0 []

/-- A directory-listing entry as `find_test_files` sees it: `file_content`
with its `type` (`"dir"` or not) and its `path`. -/
inductive Entry where
  | file (path : String)
  | dir (path : String)
deriving DecidableEq

/-- A repository tree for the walker: the association of directory paths to
their listings; `repo.get_contents d` succeeds exactly on the listed paths
and raises (modelled by `none` from `List.lookup`) otherwise. -/
abbrev RepoTree := List (String × List Entry)

/-- `is_test_file` from `src/new-script.py`: extension suffix on the raw
filename, or a substring pattern in the lower-cased filename. -/
def is_test_file (filename : String) : Bool :=
  ([".test.js", ".spec.js", ".test.py", ".spec.py", ".feature", ".test.ts",
    ".spec.ts"] : List String).any (fun ext => pyEndsWith filename ext) ||
  (["test", "spec", "unittest", "integration", "e2e", "fixture"] : List String).any
    (fun pat => pyIn pat (lowerStr filename))

/-- `is_test_directory` from `src/new-script.py`: one of the test directory
names occurs as a substring of the lower-cased path. -/
def is_test_directory (path : String) : Bool :=
  (["tests", "spec", "test", "unittests"] : List String).any
    (fun d => pyIn d (lowerStr path))

/-- Add an element to a Python-set-as-list: no duplicate is inserted. -/
def setAdd (s : List String) (x : String) : List String :=
  if s.contains x then s else s ++ [x]

/-- The `for file_content in current_contents` loop body of
`find_test_files`: returns the updated test-file set, the updated
`files_processed` counter, and the list of subdirectories pushed (in entry
order, paired with `current_depth + 1`). -/
def entriesStep (depth : Nat) : List Entry → List String → Nat →
    List String × Nat × List (String × Nat)
  | [], tf, fp => (tf, fp, [])
  | .dir p :: rest, tf, fp =>
    let r := entriesStep depth rest tf fp
    if is_test_directory p then (r.1, r.2.1, (p, depth + 1) :: r.2.2) else r
  | .file p :: rest, tf, fp =>
    if is_test_file p then entriesStep depth rest (setAdd tf p) (fp + 1)
    else entriesStep depth rest tf fp

/-- The mutable state of `find_test_files`'s `while` loop. The work list is
kept top-of-stack-first, so Python's `pop()` is the head and `append(x)`
prepends. -/
structure WalkState where
  testFiles : List String
  filesProcessed : Nat
  work : List (String × Nat)
  processedDirs : List String
deriving DecidableEq

/-- The `while directories_to_process and files_processed <
max_files_to_check` loop of `find_test_files`, with explicit fuel (the
Python loop terminates on every finite tree; every theorem below holds for
all fuel values). A popped directory already processed or deeper than
`maxDepth` is skipped; a failed listing is logged and skipped; otherwise the
directory's entries are scanned by `entriesStep` and the pushed
subdirectories go on top of the stack. -/
def walkLoop (repo : RepoTree) (maxFiles maxDepth : Nat) :
    Nat → WalkState → List String
  | 0, st => st.testFiles
  | fuel + 1, st =>
    match st.work with
    | [] => st.testFiles
    | (d, depth) :: restWork =>
      if st.filesProcessed < maxFiles then
        if st.processedDirs.contains d || maxDepth < depth then
          walkLoop repo maxFiles maxDepth fuel
            { st with work := restWork }
        else
          match List.lookup d repo with
          | none =>
            walkLoop repo maxFiles maxDepth fuel
              { st with work := restWork,
                        processedDirs := st.processedDirs ++ [d] }
          | some es =>
            let r := entriesStep depth es st.testFiles st.filesProcessed
            walkLoop repo maxFiles maxDepth fuel
              { testFiles := r.1, filesProcessed := r.2.1,
                work := r.2.2.reverse ++ restWork,
                processedDirs := st.processedDirs ++ [d] }
      else st.testFiles

/-- `find_test_files` from `src/new-script.py`: start the walk at the root
`("", 0)` with empty set, counter and visited set. -/
def find_test_files (repo : RepoTree) (maxFiles maxDepth fuel : Nat) : List String :=
  walkLoop repo maxFiles maxDepth fuel
    { testFiles := [], filesProcessed := 0, work := [("", 0)], processedDirs := [] }

/-- The largest listing length of any directory in the tree. -/
def maxListing (repo : RepoTree) : Nat :=
  repo.foldr (fun p acc => max p.2.length acc) 0

/-- The configured caps of `src/new-script.py`. -/
def max_files_to_check : Nat := 5000

/-- The configured depth cap of `src/new-script.py`. -/
def max_depth : Nat := 6

/-- The configured commit cap of `src/new-script.py`. -/
def max_commits_to_process : Nat := 200

/-- The configured qualitative-sample size of `src/new-script.py`. -/
def qualitative_commits_count : Nat := 10

/-- A commit as it arrives from the enumeration stream in
`process_commits` of `src/new-script.py`: the sha, the nullable author
name, and the outcome of the (retried) fetch — `none` when `check_commit`
returned `None` because the fetch failed. -/
structure StreamCommit where
  sha : String
  author : Option String
  fetched : Option CommitData
deriving DecidableEq

/-- Bump an author's counter in the association list modelling the
`defaultdict(int)`. -/
def bump (m : List (String × Nat)) (k : String) : List (String × Nat) :=
  match m with
  | [] => [(k, 1)]
  | (a, n) :: rest => if a = k then (a, n + 1) :: rest else (a, n) :: bump rest k

/-- The loop state of `process_commits` in `src/new-script.py`. -/
structure NewRunState where
  commit_messages : List ClassificationResult
  qualitative_commits : List ClassificationResult
  author_commit_count : List (String × Nat)
  test_related_commit_count : Nat
  analyzed_commits : Nat
deriving DecidableEq

/-- The `for commit in commits` loop of `process_commits` in
`src/new-script.py`: break once `analyzed_commits` reaches the cap; fetch
and classify; only when the commit is test-related append it, count it,
bump its author and (while the sample is below `K`) append it to the
qualitative sample; `analyzed_commits` always advances. -/
def new_loop (test_files_set : List String) (cap K : Nat) :
    List StreamCommit → NewRunState → NewRunState
  | [], st => st
  | c :: rest, st =>
    if cap ≤ st.analyzed_commits then st
    else
      let details := c.fetched.map (fun cd => check_commit_classify cd test_files_set)
      let st' :=
        match details with
        | some d =>
          if d.related_to_tests then
            { st with
              commit_messages := st.commit_messages ++ [d],
              test_related_commit_count := st.test_related_commit_count + 1,
              author_commit_count := bump st.author_commit_count (orUnknown c.author),
              qualitative_commits :=
                if st.qualitative_commits.length < K then
                  st.qualitative_commits ++ [d]
                else st.qualitative_commits }
          else st
        | none => st
      new_loop test_files_set cap K rest
        { st' with analyzed_commits := st'.analyzed_commits + 1 }

/-- `process_commits` of `src/new-script.py`, from the empty initial
accumulators (the post-loop `top_contributors` sort is report formatting
and out of the claims' scope). -/
def new_process_commits (stream : List StreamCommit) (test_files_set : List String)
    (cap K : Nat) : NewRunState :=
  new_loop test_files_set cap K stream
    { commit_messages := [], qualitative_commits := [], author_commit_count := [],
      test_related_commit_count := 0, analyzed_commits := 0 }

/-- One diff entry of `commit.diff(commit.parents[0])` in `src/teste.py`:
the target path and the optional diff text (`diff.diff` decoded; `none`
models a falsy/absent diff). -/
structure GitDiff where
  b_path : String
  diff : Option String
deriving DecidableEq

/-- A GitPython-style commit as consumed by `src/teste.py`: sha, message,
nullable author name, whether it has a parent, its diffs against the first
parent, and the `commit.stats.files` line counts. -/
structure GitCommit where
  hexsha : String
  message : String
  author : Option String
  parents_nonempty : Bool
  diffs : List GitDiff
  stats_files : List (String × Nat)
deriving DecidableEq

/-- `contains_refactor_code` from `src/teste.py`: the patterns of
`get_refactor_keywords` (`\brefactor\b`, `\bextract method\b`,
`\bmove method\b`, `\bmove attribute\b`, `\bcleanup\b`, `\breorganize\b`)
searched case-insensitively in the patch text. -/
def contains_refactor_code (patch : String) : Bool :=
  (["refactor", "extract method", "move method", "move attribute", "cleanup",
    "reorganize"] : List String).any (fun w => reWordSearch w patch)

/-- A matched file recorded by `check_commit` in `src/teste.py`. -/
structure RefactorFile where
  filename : String
  changes : Nat
  patch : String
deriving DecidableEq

/-- The dictionary returned by `check_commit` in `src/teste.py`. -/
structure RefactorResult where
  commit_sha : String
  message : String
  files : List RefactorFile
  related_to_refactor : Bool
deriving DecidableEq

/-- `check_commit` from `src/teste.py`: the diffs against the first parent
(an empty list when the commit has no parent) are scanned with
`contains_refactor_code` on the decoded patch (`""` when absent); the
commit is refactor-related exactly when some diff matched. The commit
message is not examined. -/
def teste_check_commit (commit : GitCommit) : RefactorResult :=
  let diffs := if commit.parents_nonempty then commit.diffs else []
  let matched := (diffs.filter (fun d => contains_refactor_code (effPatch d.diff))).map
    (fun d =>
      { filename := d.b_path,
        changes := (List.lookup d.b_path commit.stats_files).getD 0,
        patch := effPatch d.diff })
  if matched.isEmpty then
    { commit_sha := commit.hexsha, message := commit.message, files := [],
      related_to_refactor := false }
  else
    { commit_sha := commit.hexsha, message := commit.message, files := matched,
      related_to_refactor := true }

/-- The loop state of `process_commits` in `src/teste.py`. -/
structure TesteRunState where
  commit_messages : List RefactorResult
  qualitative_commits : List RefactorResult
  author_commit_count : List (String × Nat)
  refactor_related_commit_count : Nat
  analyzed_commits : Nat
deriving DecidableEq

/-- The `for commit in commits` loop of `process_commits` in
`src/teste.py`: break at the cap; classify; always append the result (the
returned dictionary is never empty, so Python's `if commit_details:` is
always true); count it when refactor-related; always bump the author; fill
the qualitative sample while below `K`. -/
def teste_loop (cap K : Nat) : List GitCommit → TesteRunState → TesteRunState
  | [], st => st
  | c :: rest, st =>
    if cap ≤ st.analyzed_commits then st
    else
      let d := teste_check_commit c
      let st1 := { st with analyzed_commits := st.analyzed_commits + 1 }
      let st2 := { st1 with commit_messages := st1.commit_messages ++ [d] }
      let st3 :=
        if d.related_to_refactor then
          { st2 with refactor_related_commit_count := st2.refactor_related_commit_count + 1 }
        else st2
      let st4 := { st3 with author_commit_count := bump st3.author_commit_count (orUnknown c.author) }
      let st5 :=
        if st4.qualitative_commits.length < K then
          { st4 with qualitative_commits := st4.qualitative_commits ++ [d] }
        else st4
      teste_loop cap K rest st5

/-- `process_commits` of `src/teste.py`, from the empty accumulators. -/
def teste_process_commits (stream : List GitCommit) (cap K : Nat) : TesteRunState :=
  teste_loop cap K stream
    { commit_messages := [], qualitative_commits := [], author_commit_count := [],
      refactor_related_commit_count := 0, analyzed_commits := 0 }

/-- Total of all per-author counters. -/
def sumCounts (m : List (String × Nat)) : Nat := (m.map (fun p => p.2)).sum

/-- Mapping after a filter is empty exactly when no element satisfies the
predicate. -/
theorem map_filter_isEmpty {α β : Type} (p : α → Bool) (f : α → β) (l : List α) :
    ((l.filter p).map f).isEmpty = !l.any p := by
  induction l with
  | nil => rfl
  | cons a t ih => cases h : p a <;> simp [List.filter_cons, h, ih]

/-- C1 (amended): `check_commit` marks a commit test-related exactly when
some changed file's path is in the test-file set or that file's patch
(with `None` replaced by `""`) matches a test-code pattern; the commit
message plays no role in the test-relation (`get_keywords` is never
called), so changing the message never changes the flag. -/
theorem c1_amended_claim (c : CommitData) (ts : List String) :
    (check_commit_classify c ts).related_to_tests = c.files.any (fileMatchesTest ts) ∧
    ∀ m, (check_commit_classify { c with message := m } ts).related_to_tests =
      (check_commit_classify c ts).related_to_tests := by
  have key : ∀ (c' : CommitData),
      (check_commit_classify c' ts).related_to_tests = c'.files.any (fileMatchesTest ts) := by
    intro c'
    unfold check_commit_classify
    simp only [apply_ite ClassificationResult.related_to_tests, map_filter_isEmpty]
    cases h : c'.files.any (fileMatchesTest ts) <;> simp [h]
  exact ⟨key c, fun m => by rw [key, key]⟩

/-- The concrete commit refuting C1 as stated: its message matches the test
keywords, but its only file is outside the test-file set and its patch
matches no test-code pattern. -/
def c1_commit : CommitData :=
  { sha := "c1", message := "add test",
    files := [{ filename := "main.c", status := "modified", changes := 1,
                patch := some "int x = 0;" }] }

/-- C1 (counterexample): the message "add test" matches a `get_keywords`
pattern, yet `check_commit` classifies the commit as not test-related
because no file is in the set and no patch matches — refuting the claim
that a keyword-matching message alone makes a commit test-related. -/
theorem c1_counterexample :
    message_matches_test_keyword c1_commit.message = true ∧
    (check_commit_classify c1_commit []).related_to_tests = false := by decide

/-- C4 (confirmed): under sustained rate-limiting the retry loop of
`check_commit` makes exactly `retries = 3` fetch attempts, sleeps 60
seconds after each rate-limit error, and then returns `None`; on any other
exception it returns `None` after the single failing attempt, with no
sleep and no further retries. -/
theorem c4_retry_claim (f g : Nat → FetchOutcome)
    (hf : ∀ i, i < retries → f i = .rateLimited)
    (hg : g 0 = .otherError) :
    check_commit_fetch f =
      { attempts := 3, sleeps := [60, 60, 60], result := none } ∧
    check_commit_fetch g =
      { attempts := 1, sleeps := [], result := none } := by
  have h0 := hf 0 (by norm_num [retries])
  have h1 := hf 1 (by norm_num [retries])
  have h2 := hf 2 (by norm_num [retries])
  constructor
  · show fetchAttempts f 3 0 [] = _
    simp [fetchAttempts, h0, h1, h2]
  · show fetchAttempts g 3 0 [] = _
    simp [fetchAttempts, hg]

/-- C4 (witness): the retry theorem applied to the always-rate-limited and
the immediately-failing fetch functions. -/
theorem c4_retry_witness :
    check_commit_fetch (fun _ => .rateLimited) =
      { attempts := 3, sleeps := [60, 60, 60], result := none } ∧
    check_commit_fetch (fun _ => .otherError) =
      { attempts := 1, sleeps := [], result := none } :=
  c4_retry_claim _ _ (fun _ _ => rfl) rfl

/-- The extension list of `determine_commit_objective`'s fourth branch. -/
def testLabelExts : List String :=
  [".test.js", ".spec.js", ".test.py", ".spec.py", ".feature"]

/-- C5 (confirmed): `determine_commit_objective` evaluates its branches in
strict order with the first match winning — "add test" in the lower-cased
message, else "update test", else "remove test", else a changed file whose
lower-cased name ends with a known test extension, else the no-objective
label; in particular a message containing "add test" always yields the
adding-tests label, even when it also contains "remove test". -/
theorem c5_objective_claim (msg : String) (files : List FileChange) :
    (pyIn "add test" (lowerStr msg) = true →
      determine_commit_objective msg files = "Adding new test cases") ∧
    (pyIn "add test" (lowerStr msg) = false →
      pyIn "update test" (lowerStr msg) = true →
      determine_commit_objective msg files = "Updating existing test cases") ∧
    (pyIn "add test" (lowerStr msg) = false →
      pyIn "update test" (lowerStr msg) = false →
      pyIn "remove test" (lowerStr msg) = true →
      determine_commit_objective msg files = "Removing test cases") ∧
    (pyIn "add test" (lowerStr msg) = false →
      pyIn "update test" (lowerStr msg) = false →
      pyIn "remove test" (lowerStr msg) = false →
      (files.any fun file => testLabelExts.any
        (fun ext => pyEndsWith (lowerStr file.filename) ext)) = true →
      determine_commit_objective msg files = "Changes in test files") ∧
    (pyIn "add test" (lowerStr msg) = false →
      pyIn "update test" (lowerStr msg) = false →
      pyIn "remove test" (lowerStr msg) = false →
      (files.any fun file => testLabelExts.any
        (fun ext => pyEndsWith (lowerStr file.filename) ext)) = false →
      determine_commit_objective msg files = "No specific test objective identified") := by
  refine ⟨?_, ?_, ?_, ?_, ?_⟩ <;> intros <;>
    simp_all [determine_commit_objective, testLabelExts]

/-- C5 (witness): a message containing both "add test" and "remove test"
resolves to the adding-tests label. -/
theorem c5_objective_witness :
    pyIn "add test" (lowerStr "Add test and remove test helpers") = true ∧
    determine_commit_objective "Add test and remove test helpers" [] =
      "Adding new test cases" :=
  ⟨by decide, (c5_objective_claim "Add test and remove test helpers" []).1 (by decide)⟩

/-- C9 (confirmed): when no changed file is in the test-file set and no
patch matches a test-code pattern, `check_commit` returns the fixed
not-related dictionary — `related_to_tests` false, `files` empty and the
literal objective "No test files involved" — without ever consulting
`determine_commit_objective`, whatever the commit message says. -/
theorem c9_no_match_claim (c : CommitData) (ts : List String)
    (h : c.files.all (fun f => !fileMatchesTest ts f) = true) :
    check_commit_classify c ts =
      { commit_sha := c.sha, message := c.message, files := [],
        related_to_tests := false, objective := "No test files involved" } := by
  unfold check_commit_classify
  have hnil : c.files.filter (fileMatchesTest ts) = [] := by
    rw [List.filter_eq_nil_iff]
    intro a ha
    have := (List.all_eq_true.mp h) a ha
    simpa using this
  simp [hnil]

/-- A commit whose message says "add test" but whose only file matches
nothing. -/
def c9_commit : CommitData :=
  { sha := "c9", message := "add test for parser",
    files := [{ filename := "parser.c", status := "modified", changes := 2,
                patch := some "int parse(void);" }] }

/-- C9 (witness): the no-match theorem applied to a commit whose message
contains "add test"; the objective stays "No test files involved", not the
adding-tests label. -/
theorem c9_no_match_witness :
    (c9_commit.files.all (fun f => !fileMatchesTest [] f)) = true ∧
    check_commit_classify c9_commit [] =
      { commit_sha := "c9", message := "add test for parser", files := [],
        related_to_tests := false, objective := "No test files involved" } :=
  ⟨by decide, c9_no_match_claim c9_commit [] (by decide)⟩

/-- Replace a file's patch by the string `check_commit` actually matches
against (`file.patch or ""`). -/
def normPatch (f : FileChange) : FileChange := { f with patch := some (effPatch f.patch) }

/-- File matching is unchanged by normalising an absent patch to `""`. -/
theorem fileMatchesTest_normPatch (ts : List String) (f : FileChange) :
    fileMatchesTest ts (normPatch f) = fileMatchesTest ts f := by
  simp [fileMatchesTest, normPatch, effPatch]

/-- The objective label only reads file names, so patch normalisation does
not change it. -/
theorem dco_map_normPatch (msg : String) (files : List FileChange) :
    determine_commit_objective msg (files.map normPatch) =
      determine_commit_objective msg files := by
  unfold determine_commit_objective
  simp [List.any_map, Function.comp, normPatch]

/-- The recorded dictionary is unchanged by patch normalisation. -/
theorem matchedOf_normPatch (f : FileChange) : matchedOf (normPatch f) = matchedOf f := by
  simp [matchedOf, normPatch, effPatch]

/-- The matched-file list is unchanged by patch normalisation. -/
theorem filter_map_normPatch (ts : List String) (files : List FileChange) :
    ((files.map normPatch).filter (fileMatchesTest ts)).map matchedOf =
      (files.filter (fileMatchesTest ts)).map matchedOf := by
  induction files with
  | nil => rfl
  | cons a t ih =>
    cases h : fileMatchesTest ts a <;>
      simp [List.filter_cons, fileMatchesTest_normPatch, matchedOf_normPatch, h, ih]

/-- C10 (confirmed): `contains_test_code` returns `False` on every
non-string input; a file's absent patch becomes the empty string before
pattern matching; and classifying a commit after replacing each patch by
that substituted string yields the very same result — classification is a
total function that never fails on a missing patch. -/
theorem c10_missing_patch_claim :
    (∀ p : PyVal, (∀ s, p ≠ PyVal.pyStr s) → contains_test_code p = false) ∧
    (∀ o : Option String, o = none → effPatch o = "") ∧
    (∀ (c : CommitData) (ts : List String),
      check_commit_classify { c with files := c.files.map normPatch } ts =
        check_commit_classify c ts) := by
  refine ⟨?_, ?_, ?_⟩
  · intro p hp
    cases p with
    | pyStr s => exact absurd rfl (hp s)
    | pyNone => rfl
    | pyInt n => rfl
    | pyBool b => rfl
  · intro o ho
    subst ho
    rfl
  · intro c ts
    unfold check_commit_classify
    simp [filter_map_normPatch, dco_map_normPatch, map_filter_isEmpty,
      List.any_map, Function.comp, fileMatchesTest_normPatch]

/-- A commit whose single file has no patch. -/
def c10_commit : CommitData :=
  { sha := "c10", message := "fix build",
    files := [{ filename := "a.c", status := "modified", changes := 0, patch := none }] }

/-- C10 (witness): the safety theorem applied at `None` and at a concrete
commit with a missing patch. -/
theorem c10_missing_patch_witness :
    contains_test_code PyVal.pyNone = false ∧ effPatch none = "" ∧
    check_commit_classify { c10_commit with files := c10_commit.files.map normPatch } [] =
      check_commit_classify c10_commit [] :=
  ⟨c10_missing_patch_claim.1 PyVal.pyNone (fun _ h => PyVal.noConfusion h),
   c10_missing_patch_claim.2.1 none rfl,
   c10_missing_patch_claim.2.2 c10_commit []⟩

/-- Adding to a Python set grows it by at most one element. -/
theorem setAdd_length_le (s : List String) (x : String) :
    (setAdd s x).length ≤ s.length + 1 := by
  unfold setAdd
  split
  · omega
  · simp

/-- Scanning one directory's entries keeps the set no larger than the
counter, never decreases the counter, and increases it by at most the
number of entries. -/
theorem entriesStep_bounds (depth : Nat) (es : List Entry) :
    ∀ tf fp, tf.length ≤ fp →
      (entriesStep depth es tf fp).1.length ≤ (entriesStep depth es tf fp).2.1 ∧
      fp ≤ (entriesStep depth es tf fp).2.1 ∧
      (entriesStep depth es tf fp).2.1 ≤ fp + es.length := by
  induction es with
  | nil =>
    intro tf fp h
    simpa [entriesStep] using h
  | cons e rest ih =>
    intro tf fp h
    cases e with
    | dir p =>
      obtain ⟨a, b, c⟩ := ih tf fp h
      cases hd : is_test_directory p <;>
        · simp only [entriesStep, hd, Bool.false_eq_true, if_false, if_true,
            List.length_cons]
          exact ⟨a, b, by omega⟩
    | file p =>
      cases hf : is_test_file p
      · obtain ⟨a, b, c⟩ := ih tf fp h
        simp only [entriesStep, hf, Bool.false_eq_true, if_false, List.length_cons]
        exact ⟨a, b, by omega⟩
      · have hlen : (setAdd tf p).length ≤ fp + 1 :=
          (setAdd_length_le tf p).trans (by omega)
        obtain ⟨a, b, c⟩ := ih (setAdd tf p) (fp + 1) hlen
        simp only [entriesStep, hf, if_true, List.length_cons]
        exact ⟨a, by omega, by omega⟩

/-- Any listing found in the tree is no longer than the tree's largest
listing. -/
theorem lookup_length_le_maxListing (repo : RepoTree) (d : String) (es : List Entry)
    (h : List.lookup d repo = some es) : es.length ≤ maxListing repo := by
  induction repo with
  | nil => simp [List.lookup] at h
  | cons p rest ih =>
    rw [List.lookup] at h
    split at h
    · cases h
      simp [maxListing]
    · have := ih h
      simp only [maxListing, List.foldr] at *
      omega

/-- The walk-loop invariant behind the amended C2: when the cap is positive
and the counter is within one listing of the cap, it stays there, so the
final set is bounded by `maxFiles - 1 + maxListing repo`. -/
theorem walkLoop_length_le (repo : RepoTree) (maxFiles maxDepth : Nat) :
    ∀ fuel st, st.testFiles.length ≤ st.filesProcessed →
      st.filesProcessed ≤ maxFiles - 1 + maxListing repo →
      0 < maxFiles →
      (walkLoop repo maxFiles maxDepth fuel st).length ≤
        maxFiles - 1 + maxListing repo := by
  intro fuel
  induction fuel with
  | zero =>
    intro st h1 h2 _
    simpa [walkLoop] using h1.trans h2
  | succ n ih =>
    intro st h1 h2 hmf
    rw [walkLoop]
    cases hw : st.work with
    | nil => simpa using h1.trans h2
    | cons top restWork =>
      obtain ⟨d, depth⟩ := top
      by_cases hcap : st.filesProcessed < maxFiles
      · simp only [hcap, if_true]
        by_cases hskip : (st.processedDirs.contains d || decide (maxDepth < depth)) = true
        · simp only [hskip, if_true]
          exact ih _ h1 h2 hmf
        · simp only [hskip]
          simp only [Bool.not_eq_true] at hskip
          cases hlk : List.lookup d repo with
          | none => exact ih _ h1 h2 hmf
          | some es =>
            obtain ⟨a, b, c⟩ := entriesStep_bounds depth es st.testFiles st.filesProcessed h1
            have hes := lookup_length_le_maxListing repo d es hlk
            refine ih _ a ?_ hmf
            simp only []
            omega
      · simp only [hcap, if_false]
        simpa using h1.trans h2

/-- C2 (amended): `find_test_files` re-checks the cap only before dequeuing
a directory, and every matching file of the directory being scanned is
still added; so the result can exceed `max_files_to_check`, but — for a
positive cap — never by more than one directory's worth: its size is at
most `maxFiles - 1` plus the largest directory-listing length of the
tree, for every tree, cap, depth bound and fuel. -/
theorem c2_amended_claim (repo : RepoTree) (maxFiles maxDepth fuel : Nat)
    (h : 0 < maxFiles) :
    (find_test_files repo maxFiles maxDepth fuel).length ≤
      maxFiles - 1 + maxListing repo :=
  walkLoop_length_le repo maxFiles maxDepth fuel _ (by simp) (by simp) h

/-- A root directory holding two test files: with `max_files_to_check = 1`
both are added during the single directory scan. -/
def c2_repo : RepoTree := [("", [.file "a.test.js", .file "b.test.js"])]

/-- C2 (counterexample): with cap 1, the walker returns 2 entries — the
claim that the result never exceeds `max_files_to_check` fails. -/
theorem c2_counterexample :
    (find_test_files c2_repo 1 6 100).length = 2 ∧
    ¬((find_test_files c2_repo 1 6 100).length ≤ 1) := by decide

/-- C2 (witness): the amended bound applied at the concrete tree — 2
entries against the bound `1 - 1 + 2`. -/
theorem c2_amended_witness :
    0 < 1 ∧
    (find_test_files c2_repo 1 6 100).length ≤ 1 - 1 + maxListing c2_repo :=
  ⟨by decide, c2_amended_claim c2_repo 1 6 100 (by decide)⟩

/-- Exactly the subdirectories satisfying `is_test_directory` are queued
for descent, in entry order, at depth one deeper. -/
theorem entriesStep_pushed (depth : Nat) (es : List Entry) :
    ∀ tf fp, (entriesStep depth es tf fp).2.2 =
      es.filterMap (fun e => match e with
        | .dir p => if is_test_directory p then some (p, depth + 1) else none
        | .file _ => none) := by
  induction es with
  | nil => intro tf fp; rfl
  | cons e rest ih =>
    intro tf fp
    cases e with
    | dir p =>
      cases hd : is_test_directory p <;>
        simp [entriesStep, hd, List.filterMap_cons, ih]
    | file p =>
      cases hf : is_test_file p <;>
        simp [entriesStep, hf, List.filterMap_cons, ih]

/-- A root containing only the directory `nottest`, which holds one test
file. -/
def c3_repo : RepoTree :=
  [("", [.dir "nottest"]), ("nottest", [.file "nottest/x.test.js"])]

/-- C3 (amended): a subdirectory is queued for descent exactly when
`is_test_directory` holds of its path — i.e. when one of tests/spec/test/
unittests occurs as a substring of the lower-cased path, not when the
directory name equals one of them; since "test" is a substring of
"nottest", a directory named `nottest` at depth 0 is descended and its
`x.test.js` file appears in the result (under the script's own caps). -/
theorem c3_amended_claim :
    (∀ (depth : Nat) (es : List Entry) (tf : List String) (fp : Nat),
      (entriesStep depth es tf fp).2.2 =
        es.filterMap (fun e => match e with
          | .dir p => if is_test_directory p then some (p, depth + 1) else none
          | .file _ => none)) ∧
    is_test_directory "nottest" = true ∧
    find_test_files c3_repo max_files_to_check max_depth 100 = ["nottest/x.test.js"] :=
  ⟨fun depth es tf fp => entriesStep_pushed depth es tf fp, by decide, by decide⟩

/-- C3 (counterexample): the `nottest` directory at depth 0 does NOT yield
zero descendants — the walker returns the file found inside it, refuting
the claim that directories outside the allow-list are pruned. -/
theorem c3_counterexample :
    find_test_files c3_repo max_files_to_check max_depth 100 = ["nottest/x.test.js"] ∧
    find_test_files c3_repo max_files_to_check max_depth 100 ≠ [] := by decide

/-- Bumping an author's counter increases the total by exactly one. -/
theorem bump_sum (m : List (String × Nat)) (k : String) :
    sumCounts (bump m k) = sumCounts m + 1 := by
  induction m with
  | nil => rfl
  | cons p rest ih =>
    obtain ⟨a, n⟩ := p
    by_cases h : a = k <;> simp [bump, h, sumCounts] <;>
      simp [sumCounts] at ih <;> omega

/-- Invariant of `process_commits` in `src/new-script.py`: the author
counters always total the test-related count. -/
theorem new_loop_sum_eq (ts : List String) (cap K : Nat) :
    ∀ (stream : List StreamCommit) (st : NewRunState),
      sumCounts st.author_commit_count = st.test_related_commit_count →
      sumCounts (new_loop ts cap K stream st).author_commit_count =
        (new_loop ts cap K stream st).test_related_commit_count := by
  intro stream
  induction stream with
  | nil => intro st h; simpa [new_loop] using h
  | cons c rest ih =>
    intro st h
    rw [new_loop]
    by_cases hcap : cap ≤ st.analyzed_commits
    · simpa [hcap] using h
    · simp only [hcap, if_false]
      cases hf : c.fetched with
      | none => exact ih _ (by simpa using h)
      | some cd =>
        by_cases hrel : (check_commit_classify cd ts).related_to_tests = true
        · refine ih _ ?_
          simp [hf, hrel, bump_sum, h]
        · refine ih _ ?_
          simp only [Option.map_some, hf]
          simp [Bool.not_eq_true] at hrel
          simp [hrel, h]

/-- Invariant of `process_commits` in `src/teste.py`: the author counters
always total the number of commits analyzed. -/
theorem teste_loop_sum_eq (cap K : Nat) :
    ∀ (stream : List GitCommit) (st : TesteRunState),
      sumCounts st.author_commit_count = st.analyzed_commits →
      sumCounts (teste_loop cap K stream st).author_commit_count =
        (teste_loop cap K stream st).analyzed_commits := by
  intro stream
  induction stream with
  | nil => intro st h; simpa [teste_loop] using h
  | cons c rest ih =>
    intro st h
    rw [teste_loop]
    by_cases hcap : cap ≤ st.analyzed_commits
    · simpa [hcap] using h
    · simp only [hcap, if_false]
      refine ih _ ?_
      by_cases hrel : (teste_check_commit c).related_to_refactor = true <;>
        by_cases hq : st.qualitative_commits.length < K <;>
          simp [hrel, hq, bump_sum, h]

/-- C6 (amended): in `src/new-script.py` the author counter is bumped only
inside the test-related branch, so after any run the author counts sum to
`test_related_commit_count`, not to the number of fetched commits; in
`src/teste.py` the bump is unconditional, and there the counts sum to the
number of commits attempted. -/
theorem c6_amended_claim (stream : List StreamCommit) (gstream : List GitCommit)
    (ts : List String) (cap K : Nat) :
    sumCounts (new_process_commits stream ts cap K).author_commit_count =
      (new_process_commits stream ts cap K).test_related_commit_count ∧
    sumCounts (teste_process_commits gstream cap K).author_commit_count =
      (teste_process_commits gstream cap K).analyzed_commits :=
  ⟨new_loop_sum_eq ts cap K stream _ rfl, teste_loop_sum_eq cap K gstream _ rfl⟩

/-- A successfully fetched commit that is not test-related (no files). -/
def c6_stream_commit : StreamCommit :=
  { sha := "s6", author := some "alice",
    fetched := some { sha := "s6", message := "update docs", files := [] } }

/-- C6 (counterexample): one successfully fetched, not test-related commit
is processed, yet the author counts sum to 0, not 1 — refuting the claim
that `author_stats` is incremented for every fetched commit regardless of
classification. -/
theorem c6_counterexample :
    c6_stream_commit.fetched.isSome = true ∧
    (new_process_commits [c6_stream_commit] [] 200 10).analyzed_commits = 1 ∧
    sumCounts (new_process_commits [c6_stream_commit] [] 200 10).author_commit_count
      = 0 := by decide

/-- The qualitative sample of `src/new-script.py` never exceeds `K`. -/
theorem new_loop_qual_le (ts : List String) (cap K : Nat) :
    ∀ (stream : List StreamCommit) (st : NewRunState),
      st.qualitative_commits.length ≤ K →
      (new_loop ts cap K stream st).qualitative_commits.length ≤ K := by
  intro stream
  induction stream with
  | nil => intro st h; simpa [new_loop] using h
  | cons c rest ih =>
    intro st h
    rw [new_loop]
    by_cases hcap : cap ≤ st.analyzed_commits
    · simpa [hcap] using h
    · simp only [hcap, if_false]
      cases hf : c.fetched with
      | none => exact ih _ (by simpa using h)
      | some cd =>
        by_cases hrel : (check_commit_classify cd ts).related_to_tests = true
        · refine ih _ ?_
          by_cases hq : st.qualitative_commits.length < K <;>
            simp [hf, hrel, hq] <;> omega
        · refine ih _ ?_
          simp only [Option.map_some, hf]
          simp [Bool.not_eq_true] at hrel
          simpa [hrel] using h

/-- The qualitative sample of `src/teste.py` never exceeds `K`. -/
theorem teste_loop_qual_le (cap K : Nat) :
    ∀ (stream : List GitCommit) (st : TesteRunState),
      st.qualitative_commits.length ≤ K →
      (teste_loop cap K stream st).qualitative_commits.length ≤ K := by
  intro stream
  induction stream with
  | nil => intro st h; simpa [teste_loop] using h
  | cons c rest ih =>
    intro st h
    rw [teste_loop]
    by_cases hcap : cap ≤ st.analyzed_commits
    · simpa [hcap] using h
    · simp only [hcap, if_false]
      refine ih _ ?_
      by_cases hrel : (teste_check_commit c).related_to_refactor = true <;>
        by_cases hq : st.qualitative_commits.length < K <;>
          simp [hrel, hq] <;> omega

/-- C7 (confirmed): in both aggregator variants a commit is appended to the
qualitative sample only while its size is strictly below `K`, so after any
run — over any stream, hence at every intermediate point, each being the
final state of a prefix run — the sample holds at most `K` entries. -/
theorem c7_qualitative_bound (ts : List String) (cap K : Nat)
    (stream : List StreamCommit) (gstream : List GitCommit) :
    (new_process_commits stream ts cap K).qualitative_commits.length ≤ K ∧
    (teste_process_commits gstream cap K).qualitative_commits.length ≤ K :=
  ⟨new_loop_qual_le ts cap K stream _ (by simp),
   teste_loop_qual_le cap K gstream _ (by simp)⟩

/-- C8 (amended): `check_commit` of `src/teste.py` marks a commit
refactor-related exactly when some per-file patch of its diff against the
first parent (an empty diff list when the commit has no parent) matches a
`refactorKeywords` pattern; the commit message is never consulted, so
changing the message never changes the flag. -/
theorem c8_amended_claim (c : GitCommit) :
    (teste_check_commit c).related_to_refactor =
      (if c.parents_nonempty then c.diffs else []).any
        (fun d => contains_refactor_code (effPatch d.diff)) ∧
    ∀ m, (teste_check_commit { c with message := m }).related_to_refactor =
      (teste_check_commit c).related_to_refactor := by
  have key : ∀ (c' : GitCommit),
      (teste_check_commit c').related_to_refactor =
        (if c'.parents_nonempty then c'.diffs else []).any
          (fun d => contains_refactor_code (effPatch d.diff)) := by
    intro c'
    unfold teste_check_commit
    simp only [apply_ite RefactorResult.related_to_refactor, map_filter_isEmpty]
    cases h : (if c'.parents_nonempty then c'.diffs else []).any
        (fun d => contains_refactor_code (effPatch d.diff)) <;> simp [h]
  refine ⟨key c, fun m => ?_⟩
  rw [key, key]

/-- A commit whose message contains the word "refactor" but whose single
diff matches no refactor pattern. -/
def c8_commit : GitCommit :=
  { hexsha := "c8", message := "refactor code", author := some "bob",
    parents_nonempty := true,
    diffs := [{ b_path := "m.c", diff := some "x = 1" }],
    stats_files := [] }

/-- C8 (counterexample): the message "refactor code" matches the
`refactorKeywords` patterns, yet the commit is classified as not
refactor-related because its diff does not — refuting the claim that a
keyword-matching message marks a commit refactor-related. -/
theorem c8_counterexample :
    contains_refactor_code c8_commit.message = true ∧
    (teste_check_commit c8_commit).related_to_refactor = false := by decide
